import Mathlib

/-!
Verification of the WalkingPad BLE connection supervisor
(`connection_manager.py`, class `WalkingPadConnectionManager`).

The Python class is embedded shallowly: its mutable attributes become the
fields of `ManagerState`, every BLE transport call (scan, connect, liveness
probe, disconnect) becomes a schedule entry describing the outcome the
environment produces for that call, and every method becomes a pure function
from a state, the current wall-clock time, and a schedule to a new state, a
return value and a trace of the externally visible actions it performed.
Times and durations are rationals (seconds).

Two ghost fields instrument facts needed only for invariants and carry no
control flow: `client_present` (the controller's transport handle was
established by a successful `controller.run` and not torn down) and
`probed_since_connect` (an `ask_stats` liveness probe has succeeded since
`connected` last became true).
-/

namespace WalkingPad

/-- Wall-clock instants and durations, in seconds. -/
abbrev Time := ℚ

/-- Outcome of one `controller.ask_stats()` liveness probe, as seen through
`asyncio.wait_for`: success, `asyncio.TimeoutError`, a BLE-related exception
(message mentioning "disconnected"/"bleak"), or any other exception. -/
inductive ProbeOutcome
  | ok
  | timeout
  | bleError
  | otherError
  deriving DecidableEq, Repr

/-- Outcome of one `controller.run(address)` transport connect attempt. -/
inductive ConnectOutcome
  | ok
  | timeout
  | error
  deriving DecidableEq, Repr

/-- Outcome of one `BleakScanner.discover` scan: the target address is found,
not found, or the scan itself raises (caught inside `scan_for_device`). -/
inductive ScanOutcome
  | found
  | notFound
  | scanError
  deriving DecidableEq, Repr

/-- Outcome of one best-effort `controller.disconnect()` call (always wrapped
in try/except by the source, so it never propagates). -/
inductive DisconnectOutcome
  | ok
  | fails
  deriving DecidableEq, Repr

/-- Externally visible actions a supervisor method can perform, recorded as a
trace: a BLE scan, a transport connect attempt (with its 0-based attempt
index), a liveness probe, a best-effort transport disconnect, a backoff or
bounded wait of a given duration, and the nuclear replacement of the
controller instance. -/
inductive Action
  | scanAction
  | connectAttempt (k : Nat)
  | probeAction
  | disconnectAction
  | sleepAction (d : ℚ)
  | resetController
  deriving DecidableEq, Repr

/-- The mutable attributes of `WalkingPadConnectionManager` (set in
`__init__`), plus the two ghost fields described in the file header.
The controller object is modelled by its identity: a counter bumped each
time `disconnect_safe` allocates a fresh `Controller()`.  `monitor_threads`
counts monitor threads started and still running their loop. -/
structure ManagerState where
  controller : Nat
  connected : Bool
  last_connection_attempt : Time
  last_health_check : Time
  connection_start_time : Time
  connect_lock_held : Bool
  monitoring_active : Bool
  monitor_threads : Nat
  scan_cache : Option Time
  scan_cache_timeout : ℚ
  health_check_interval : ℚ
  max_connection_age : ℚ
  ble_connect_timeout : ℚ
  ble_cmd_timeout : ℚ
  client_present : Bool
  probed_since_connect : Bool
  deriving DecidableEq, Repr

/-- The state built by `__init__`: fresh controller, disconnected, zeroed
timestamps, empty scan cache, and the hard-coded configuration constants
(30 s scan-cache TTL, 5 s health-check interval, 180 s max connection age,
10 s BLE connect timeout, 5 s BLE command timeout). -/
def initState : ManagerState where
  controller := 0
  connected := false
  last_connection_attempt := 0
  last_health_check := 0
  connection_start_time := 0
  connect_lock_held := false
  monitoring_active := false
  monitor_threads := 0
  scan_cache := none
  scan_cache_timeout := 30
  health_check_interval := 5
  max_connection_age := 180
  ble_connect_timeout := 10
  ble_cmd_timeout := 5
  client_present := false
  probed_since_connect := false

/-- `scan_for_device`: one `BleakScanner.discover` call.  If the target
address is found the scan cache entry for it is written with the current
timestamp and the method returns true; if it is absent, or the scan raises
(caught), the method returns false and the cache is untouched. -/
def scan_for_device (s : ManagerState) (now : Time) (o : ScanOutcome) :
    ManagerState × Bool × List Action :=
  match o with
  | .found => ({ s with scan_cache := some now }, true, [.scanAction])
  | .notFound => (s, false, [.scanAction])
  | .scanError => (s, false, [.scanAction])

/-- `is_scan_cache_valid`: there is a cache entry for the address and its
age `now - timestamp` is below `scan_cache_timeout`. -/
def is_scan_cache_valid (s : ManagerState) (now : Time) : Bool :=
  match s.scan_cache with
  | none => false
  | some ts => decide (now - ts < s.scan_cache_timeout)

/-- `is_connection_stale`: connected and the connection age
`now - connection_start_time` strictly exceeds `max_connection_age`. -/
def is_connection_stale (s : ManagerState) (now : Time) : Bool :=
  if ¬s.connected then false
  else decide (now - s.connection_start_time > s.max_connection_age)

/-- `disconnect_safe`: if connected, a best-effort bounded
`controller.disconnect()` is attempted when the controller holds a client
(every outcome, including failure, is swallowed) and `connected` is set to
false; then, unconditionally, the controller is discarded and replaced by a
completely fresh `Controller()` instance (the "nuclear reset"). -/
def disconnect_safe (s : ManagerState) (o : DisconnectOutcome) :
    ManagerState × List Action :=
  let tr : List Action :=
    if s.connected && s.client_present then [.disconnectAction] else []
  let s1 := if s.connected then { s with connected := false } else s
  let _ := o
  ({ s1 with controller := s1.controller + 1
             client_present := false
             probed_since_connect := false },
   tr ++ [.resetController])

/-- `start_monitoring`: sets the monitoring flag and unconditionally calls
`_start_monitor_thread`, which always spawns a new thread running
`monitor_and_connect` (there is no aliveness guard). -/
def start_monitoring (s : ManagerState) : ManagerState :=
  { s with monitoring_active := true
           monitor_threads := s.monitor_threads + 1 }

/-- `stop_monitoring`: clears the monitoring flag; running monitor loops
observe it and exit at their next iteration. -/
def stop_monitoring (s : ManagerState) : ManagerState :=
  { s with monitoring_active := false }

/-- Environment outcomes consumed by one `health_check` call: the liveness
probe, the fallback scan (consulted only on probe timeout) and the
best-effort disconnect inside `disconnect_safe` (consulted only when a
forced reset happens). -/
structure HealthSchedule where
  probe : ProbeOutcome
  scan : ScanOutcome
  disc : DisconnectOutcome
  deriving DecidableEq, Repr

/-- `health_check`: returns True immediately when called within
`health_check_interval` of the previous check; otherwise records the check
time and, when connected, probes the controller with a 2 s bound.  Probe
timeout triggers a fallback scan: device discoverable means a wedged session
and forces `disconnect_safe`; device absent merely marks the state
disconnected.  A BLE-flavoured probe exception forces `disconnect_safe`,
any other exception just marks disconnected.  A successful probe is followed
by the staleness check, which also forces `disconnect_safe`.  When not
connected the call returns False. -/
def health_check (s : ManagerState) (now : Time) (sched : HealthSchedule) :
    ManagerState × Bool × List Action :=
  if now - s.last_health_check < s.health_check_interval then (s, true, [])
  else
    let s0 := { s with last_health_check := now }
    if s0.connected then
      match sched.probe with
      | .ok =>
        let s1 := { s0 with probed_since_connect := true }
        if is_connection_stale s1 now then
          let d := disconnect_safe s1 sched.disc
          ({ d.1 with connected := false }, false, .probeAction :: d.2)
        else
          (s1, true, [.probeAction])
      | .timeout =>
        let r := scan_for_device s0 now sched.scan
        if r.2.1 then
          let d := disconnect_safe r.1 sched.disc
          ({ d.1 with connected := false }, false, .probeAction :: (r.2.2 ++ d.2))
        else
          ({ r.1 with connected := false }, false, .probeAction :: r.2.2)
      | .bleError =>
        let d := disconnect_safe s0 sched.disc
        ({ d.1 with connected := false }, false, .probeAction :: d.2)
      | .otherError =>
        ({ s0 with connected := false }, false, [.probeAction])
    else
      (s0, false, [])

/-- The local backoff constants of `connect_with_exponential_backoff`:
`base_delay = 0.5` and `max_delay = 8.0` seconds. -/
def base_delay : ℚ := 1/2

/-- Cap of the exponential backoff (`max_delay = 8.0` in the source). -/
def max_delay : ℚ := 8

/-- The backoff delay computed for attempt `k`:
`delay = min(base_delay * (2 ** attempt), max_delay)`. -/
def backoffDelay (k : Nat) : ℚ := min (base_delay * 2 ^ k) max_delay

/-- Environment outcomes consumed by one iteration of the connect retry
loop: the transport connect (`controller.run`), the confirming liveness
probe (`ask_stats`, consulted only when the connect succeeded) and the
best-effort cleanup disconnect on failure. -/
structure AttemptOutcome where
  connect : ConnectOutcome
  probe : ProbeOutcome
  cleanup : DisconnectOutcome
  deriving DecidableEq, Repr

/-- An attempt establishes the connection exactly when the transport connect
and the confirming probe both succeed. -/
def attemptSucceeds (a : AttemptOutcome) : Bool :=
  decide (a.connect = ConnectOutcome.ok ∧ a.probe = ProbeOutcome.ok)

/-- The actions performed by retry-loop iteration `k` with outcome `a`: the
backoff sleep (absent for the first attempt), the transport connect, the
probe when the connect succeeded, and the cleanup disconnect when the
attempt failed. -/
def attemptTrace (k : Nat) (a : AttemptOutcome) : List Action :=
  (if k = 0 then [] else [.sleepAction (backoffDelay k)]) ++
  (.connectAttempt k ::
    match a.connect with
    | .ok =>
      .probeAction ::
        (match a.probe with
         | .ok => []
         | _ => [.disconnectAction])
    | _ => [.disconnectAction])

/-- The `for attempt in range(max_attempts)` retry loop of
`connect_with_exponential_backoff`, starting at attempt `k` with `fuel`
attempts remaining.  On success it sets `connected`, stamps
`last_connection_attempt` and `connection_start_time` with the wall clock
and returns true.  On `asyncio.TimeoutError` it marks disconnected and
attempts a bounded cleanup disconnect whose failure is ignored; on any
other exception it marks disconnected, attempts the cleanup disconnect and,
when that also fails, clears the controller's internal client handle. -/
def runAttempts (now : Time) (outs : Nat → AttemptOutcome) :
    ManagerState → Nat → Nat → ManagerState × Bool × List Action
  | s, _, 0 => (s, false, [])
  | s, k, fuel + 1 =>
    let a := outs k
    let tr := attemptTrace k a
    match a.connect, a.probe with
    | .ok, .ok =>
      ({ s with connected := true
                client_present := true
                probed_since_connect := true
                last_connection_attempt := now
                connection_start_time := now },
       true, tr)
    | .ok, .timeout =>
      let s1 := { s with client_present := true, connected := false }
      let r := runAttempts now outs s1 (k + 1) fuel
      (r.1, r.2.1, tr ++ r.2.2)
    | .ok, .bleError =>
      let s1 := { s with connected := false
                         client_present := decide (a.cleanup = DisconnectOutcome.ok) }
      let r := runAttempts now outs s1 (k + 1) fuel
      (r.1, r.2.1, tr ++ r.2.2)
    | .ok, .otherError =>
      let s1 := { s with connected := false
                         client_present := decide (a.cleanup = DisconnectOutcome.ok) }
      let r := runAttempts now outs s1 (k + 1) fuel
      (r.1, r.2.1, tr ++ r.2.2)
    | .timeout, _ =>
      let s1 := { s with connected := false }
      let r := runAttempts now outs s1 (k + 1) fuel
      (r.1, r.2.1, tr ++ r.2.2)
    | .error, _ =>
      let s1 := { s with connected := false
                         client_present :=
                           if a.cleanup = DisconnectOutcome.fails then false
                           else s.client_present }
      let r := runAttempts now outs s1 (k + 1) fuel
      (r.1, r.2.1, tr ++ r.2.2)

/-- Environment outcomes consumed by one `connect_with_exponential_backoff`
call: the fresh scan (consulted only when the cache is stale or absent) and
the per-attempt outcomes. -/
structure CwbSchedule where
  scan : ScanOutcome
  attempts : Nat → AttemptOutcome

/-- `connect_with_exponential_backoff`: a contended connection lock makes the
call report the current connected flag after a 0.1 s wait; an already
connected supervisor returns true with no side effect; otherwise a stale or
absent scan cache entry forces a fresh scan whose failure aborts the whole
call (no blind connect), and then the bounded retry loop runs.  The lock is
released on every exit path, so its net state is unchanged. -/
def connect_with_exponential_backoff (s : ManagerState) (now : Time)
    (sched : CwbSchedule) (max_attempts : Nat) :
    ManagerState × Bool × List Action :=
  if s.connect_lock_held then
    (s, s.connected, [.sleepAction (1/10)])
  else if s.connected then
    (s, true, [])
  else if is_scan_cache_valid s now then
    runAttempts now sched.attempts s 0 max_attempts
  else
    match scan_for_device s now sched.scan with
    | (s1, true, tr1) =>
      let r := runAttempts now sched.attempts s1 0 max_attempts
      (r.1, r.2.1, tr1 ++ r.2.2)
    | (s1, false, tr1) => (s1, false, tr1)

/-- The primitive state-mutating operations of the supervisor, each with the
environment outcomes it consumes.  `entryProbeOp` is the fast liveness probe
at the top of `get_connection`; `markDisconnectedOp` is the bare
`self.connected = False` assignment performed by the monitor loop and by
`get_connection`'s error handlers. -/
inductive Op
  | scanOp (now : Time) (o : ScanOutcome)
  | cwbOp (now : Time) (sched : CwbSchedule) (m : Nat)
  | healthOp (now : Time) (sched : HealthSchedule)
  | discOp (o : DisconnectOutcome)
  | entryProbeOp (o : ProbeOutcome)
  | markDisconnectedOp
  | startMonOp
  | stopMonOp

/-- One supervisor operation applied to the state. -/
def applyOp (s : ManagerState) : Op → ManagerState
  | .scanOp now o => (scan_for_device s now o).1
  | .cwbOp now sched m => (connect_with_exponential_backoff s now sched m).1
  | .healthOp now sched => (health_check s now sched).1
  | .discOp o => (disconnect_safe s o).1
  | .entryProbeOp o =>
    if s.connected then
      match o with
      | .ok => { s with probed_since_connect := true }
      | _ => { s with connected := false }
    else s
  | .markDisconnectedOp => { s with connected := false }
  | .startMonOp => start_monitoring s
  | .stopMonOp => stop_monitoring s

/-- The connectedness invariant: whenever the supervisor is Connected, the
controller holds an established transport client and a liveness probe has
succeeded since the transition to Connected. -/
def Inv (s : ManagerState) : Prop :=
  s.connected = true → s.client_present = true ∧ s.probed_since_connect = true

/-!
Wall-clock model of `get_connection(timeout)`.

`get_connection` is modelled at the granularity of its own awaited calls:
the entry liveness probe and, per loop iteration, one optional fast
`connect_with_exponential_backoff(max_attempts=2)` call (guarded by
`is_scan_cache_valid`) and one fallback
`connect_with_exponential_backoff(max_attempts=3)` call, each wrapped in
`asyncio.wait_for` with the freshly recomputed remaining budget
`max(1.0, timeout - (time.time() - start_time))`.  The environment supplies,
for each awaited call, the duration it would run to completion and whether
it completes with a boolean or raises; `asyncio.wait_for` truncates any call
whose duration exceeds the remaining budget and turns it into a caught
`asyncio.TimeoutError`.  Whether the scan cache is valid at an iteration is
also environment-supplied, since it depends on concurrent cache writes.
The loop itself is clocked by a fuel argument; the deadline theorem shows
the fuel needed is bounded by the timeout, so the distinguished `fuelOut`
result never arises.
-/

/-- Completion behaviour of one awaited call, had it run to completion:
it returns a boolean after its duration, or raises an exception. -/
inductive CallRes
  | ok (b : Bool)
  | raises
  deriving DecidableEq, Repr

/-- Effective outcome of an awaited call as seen through `asyncio.wait_for`. -/
inductive WRes
  | done (b : Bool)
  | excRaised
  | timedOut
  deriving DecidableEq, Repr

/-- `asyncio.wait_for` semantics: a call of duration `dur` and completion
behaviour `res`, awaited with budget `remaining`, finishes after
`min dur remaining` seconds — with its own outcome if `dur ≤ remaining`,
and as a `TimeoutError` cancelled exactly at the budget otherwise. -/
def waitForCall (dur : ℚ) (res : CallRes) (remaining : ℚ) : WRes × ℚ :=
  if dur ≤ remaining then
    (match res with
     | .ok b => .done b
     | .raises => .excRaised, dur)
  else (.timedOut, remaining)

/-- Environment behaviour of one iteration of `get_connection`'s retry
loop: validity of the scan cache at the iteration's start, and duration and
completion behaviour of the fast and fallback connect calls. -/
structure GCIter where
  cacheValid : Bool
  fastDur : ℚ
  fastRes : CallRes
  slowDur : ℚ
  slowRes : CallRes

/-- Environment behaviour of a whole `get_connection` call: the entry
liveness probe (duration and whether it raises) and the per-iteration
behaviours. -/
structure GCSched where
  probeDur : ℚ
  probeRaises : Bool
  iters : Nat → GCIter

/-- Result of `get_connection`: a usable client handle or the terminal
`Unavailable` exception, each tagged with the wall-clock seconds elapsed
since the call started; `fuelOut` is the model's out-of-fuel marker. -/
inductive GCResult
  | success (t : ℚ)
  | unavailable (t : ℚ)
  | fuelOut
  deriving DecidableEq, Repr

/-- Wall-clock seconds at which a `get_connection` result was produced. -/
def GCResult.time : GCResult → ℚ
  | .success t => t
  | .unavailable t => t
  | .fuelOut => 0

/-- The remaining budget `max(1.0, timeout - elapsed)` recomputed from the
wall clock before each awaited connect call. -/
def gcRemaining (T elapsed : ℚ) : ℚ := max 1 (T - elapsed)

/-- Outcome handling after the fallback (`max_attempts=3`) connect call of a
loop iteration that started `e1` seconds in: a True completion returns the
handle, an exception reaches the outer handler and costs the 1 s error
sleep, and a False completion or a caught `TimeoutError` falls through to
the unconditional 2 s retry sleep; `recurse` continues the loop at the given
elapsed time. -/
def gcAfterSlow (e1 : ℚ) (recurse : ℚ → GCResult) : WRes × ℚ → GCResult
  | (.done true, d2) => .success (e1 + d2)
  | (.done false, d2) => recurse (e1 + d2 + 2)
  | (.excRaised, d2) => recurse (e1 + d2 + 1)
  | (.timedOut, d2) => recurse (e1 + d2 + 2)

/-- Outcome handling after the optional fast (`max_attempts=2`) connect call
of a loop iteration that started at `elapsed`: a True completion returns the
handle, an exception skips the fallback call and costs the 1 s error sleep,
and a False completion or a caught `TimeoutError` proceeds to the fallback
call, awaited with a freshly recomputed remaining budget. -/
def gcAfterFast (T : ℚ) (it : GCIter) (elapsed : ℚ) (recurse : ℚ → GCResult) :
    WRes × ℚ → GCResult
  | (.done true, d) => .success (elapsed + d)
  | (.excRaised, d) => recurse (elapsed + d + 1)
  | (.done false, d) =>
    gcAfterSlow (elapsed + d) recurse
      (waitForCall it.slowDur it.slowRes (gcRemaining T (elapsed + d)))
  | (.timedOut, d) =>
    gcAfterSlow (elapsed + d) recurse
      (waitForCall it.slowDur it.slowRes (gcRemaining T (elapsed + d)))

/-- The `while time.time() - start_time < timeout` retry loop of
`get_connection`, iteration `i`, at `elapsed` seconds since the call
started.  When the scan cache is valid the iteration first awaits the fast
connect call under the recomputed remaining budget; otherwise it proceeds
directly to the fallback call (modelled as a fast phase that finishes
instantly with False). -/
def gcLoop (T : ℚ) (iters : Nat → GCIter) :
    Nat → ℚ → Nat → GCResult
  | _, elapsed, 0 =>
    if elapsed < T then .fuelOut else .unavailable elapsed
  | i, elapsed, fuel + 1 =>
    if elapsed < T then
      gcAfterFast T (iters i) elapsed (fun nxt => gcLoop T iters (i + 1) nxt fuel)
        (if (iters i).cacheValid then
          waitForCall (iters i).fastDur (iters i).fastRes (gcRemaining T elapsed)
        else (.done false, 0))
    else .unavailable elapsed

/-- `get_connection(timeout=T)`: when already connected, the entry liveness
probe runs under `wait_for(·, ble_cmd_timeout)`; its success returns the
handle immediately, its exception or timeout marks the supervisor
disconnected and falls through to the retry loop, which also serves the
initially disconnected case. -/
def get_connection (s : ManagerState) (T : ℚ) (sched : GCSched)
    (fuel : Nat) : GCResult :=
  if s.connected then
    match waitForCall sched.probeDur
        (if sched.probeRaises then .raises else .ok true) s.ble_cmd_timeout with
    | (.done _, d) => .success d
    | (.excRaised, d) => gcLoop T sched.iters 0 d fuel
    | (.timedOut, d) => gcLoop T sched.iters 0 d fuel
  else gcLoop T sched.iters 0 0 fuel

/-- Durations an environment schedule may assign are nonnegative. -/
def ValidGCSched (sched : GCSched) : Prop :=
  0 ≤ sched.probeDur ∧ ∀ i, 0 ≤ (sched.iters i).fastDur ∧ 0 ≤ (sched.iters i).slowDur

/-!  Concrete inputs used by witnesses and counterexamples. -/

/-- A benign attempt outcome (everything succeeds). -/
def okAttempt : AttemptOutcome := ⟨ConnectOutcome.ok, ProbeOutcome.ok, DisconnectOutcome.ok⟩

/-- A supervisor that has just recorded a health check at t = 100 s. -/
def recentCheckState : ManagerState := { initState with last_health_check := 100 }

/-- A connected supervisor (ghost fields consistent) whose connection began
at t = 0 and whose previous health check was at t = 198 s. -/
def staleGatedState : ManagerState :=
  { initState with connected := true
                   client_present := true
                   probed_since_connect := true
                   last_health_check := 198 }

/-- A connected supervisor (ghost fields consistent) with zeroed clocks. -/
def connectedState : ManagerState :=
  { initState with connected := true
                   client_present := true
                   probed_since_connect := true }

/-- A disconnected supervisor holding a scan cache entry stamped t = 0. -/
def cachedState : ManagerState := { initState with scan_cache := some 0 }

/-- A `get_connection` environment whose connect calls all complete
instantly with False. -/
def allFailGC : GCSched :=
  ⟨0, false, fun _ => ⟨false, 0, CallRes.ok false, 0, CallRes.ok false⟩⟩

/-!  Theorems. -/

/-!  Helper lemmas about the backoff delay and the retry-loop trace. -/

lemma backoffDelay_base_pos (k : Nat) : (0 : ℚ) < base_delay * 2 ^ k := by
  have hb : (0 : ℚ) < base_delay := by norm_num [base_delay]
  have h2 : (0 : ℚ) < 2 ^ k := by positivity
  exact mul_pos hb h2

lemma backoffDelay_mono {k l : Nat} (h : k ≤ l) : backoffDelay k ≤ backoffDelay l := by
  unfold backoffDelay
  have h2 : (2 : ℚ) ^ k ≤ 2 ^ l := pow_le_pow_right₀ (by norm_num) h
  have hm : base_delay * 2 ^ k ≤ base_delay * 2 ^ l :=
    mul_le_mul_of_nonneg_left h2 (by norm_num [base_delay])
  exact min_le_min hm le_rfl

lemma backoffDelay_strict (k : Nat) (h : backoffDelay k < max_delay) :
    backoffDelay k < backoffDelay (k + 1) := by
  have hx : backoffDelay k = base_delay * 2 ^ k := by
    rcases le_or_lt (base_delay * 2 ^ k) max_delay with h1 | h1
    · exact min_eq_left h1
    · exfalso
      unfold backoffDelay at h
      rw [min_eq_right h1.le] at h
      exact lt_irrefl _ h
  have hpos := backoffDelay_base_pos k
  have hsucc : base_delay * 2 ^ (k + 1) = base_delay * 2 ^ k * 2 := by
    rw [pow_succ]; ring
  have hlt : base_delay * 2 ^ k < base_delay * 2 ^ (k + 1) := by
    rw [hsucc]; linarith
  unfold backoffDelay at h ⊢
  exact lt_min (by rw [← backoffDelay, hx]; exact hlt) h

lemma attemptTrace_connect_mem {j k : Nat} {a : AttemptOutcome}
    (h : Action.connectAttempt j ∈ attemptTrace k a) : j = k := by
  rcases a with ⟨c, p, cl⟩
  by_cases hk : k = 0 <;> cases c <;> cases p <;>
    simp [attemptTrace, hk] at h <;> omega

lemma attemptTrace_sleep_first {k : Nat} (hk : 0 < k) (a : AttemptOutcome) :
    List.IsPrefix [Action.sleepAction (backoffDelay k), Action.connectAttempt k]
      (attemptTrace k a) := by
  refine ⟨(match a.connect with
    | .ok => Action.probeAction ::
        (match a.probe with | .ok => [] | _ => [Action.disconnectAction])
    | _ => [Action.disconnectAction]), ?_⟩
  unfold attemptTrace
  simp [Nat.pos_iff_ne_zero.mp hk]

lemma isInfix_append_left {α : Type} {L M N : List α} (h : List.IsInfix L M) :
    List.IsInfix L (N ++ M) := by
  obtain ⟨p, q, hp⟩ := h
  exact ⟨N ++ p, q, by rw [← hp]; simp⟩

lemma isInfix_append_right {α : Type} {L M N : List α} (h : List.IsInfix L M) :
    List.IsInfix L (M ++ N) := by
  obtain ⟨p, q, hp⟩ := h
  exact ⟨p, q ++ N, by rw [← hp]; simp⟩

lemma runAttempts_sleep_before (now : Time) (outs : Nat → AttemptOutcome) :
    ∀ (fuel : Nat) (s : ManagerState) (k j : Nat), 0 < j →
      Action.connectAttempt j ∈ (runAttempts now outs s k fuel).2.2 →
      List.IsInfix [Action.sleepAction (backoffDelay j), Action.connectAttempt j]
        (runAttempts now outs s k fuel).2.2 := by
  intro fuel
  induction fuel with
  | zero =>
    intro s k j hj hmem
    simp [runAttempts] at hmem
  | succ fuel ih =>
    intro s k j hj hmem
    cases hc : (outs k).connect <;> cases hp : (outs k).probe <;>
      simp only [runAttempts, hc, hp] at hmem ⊢ <;>
      first
      | (have hjk := attemptTrace_connect_mem hmem
         subst hjk
         exact (attemptTrace_sleep_first hj _).isInfix)
      | (rcases List.mem_append.mp hmem with hmem1 | hmem2
         · have hjk := attemptTrace_connect_mem hmem1
           subst hjk
           exact isInfix_append_right ((attemptTrace_sleep_first hj _).isInfix)
         · exact isInfix_append_left (ih _ _ _ hj hmem2))

lemma runAttempts_head (now : Time) (outs : Nat → AttemptOutcome) (s : ManagerState)
    (fuel : Nat) (h : 1 ≤ fuel) :
    ((runAttempts now outs s 0 fuel).2.2).take 1 = [Action.connectAttempt 0] := by
  cases fuel with
  | zero => omega
  | succ fuel =>
    cases hc : (outs 0).connect <;> cases hp : (outs 0).probe <;>
      simp [runAttempts, hc, hp, attemptTrace]

/-- C7: on every return of `disconnect_safe` — whatever the transport
disconnect call did — the supervisor is Disconnected and the client handle
has been discarded and replaced by a fresh controller instance. -/
theorem c7_disconnect_safe_postcondition (s : ManagerState) (o : DisconnectOutcome) :
    (disconnect_safe s o).1.connected = false ∧
    (disconnect_safe s o).1.controller ≠ s.controller := by
  unfold disconnect_safe
  by_cases h : s.connected <;> simp [h]

/-- C10: calling `disconnect_safe` on an already Disconnected supervisor
still discards and replaces the client handle (the returned controller is a
fresh instance distinct from the one held before), and the connected flag
remains false. -/
theorem c10_disconnect_safe_idempotent_reset (s : ManagerState)
    (o : DisconnectOutcome) (h : s.connected = false) :
    (disconnect_safe s o).1.controller ≠ s.controller ∧
    (disconnect_safe s o).1.connected = false := by
  unfold disconnect_safe
  simp [h]

/-- Witness for C10 at the freshly initialised (disconnected) supervisor. -/
theorem c10_disconnect_safe_idempotent_reset_witness :
    initState.connected = false ∧
    ((disconnect_safe initState DisconnectOutcome.ok).1.controller ≠ initState.controller ∧
     (disconnect_safe initState DisconnectOutcome.ok).1.connected = false) :=
  ⟨rfl, c10_disconnect_safe_idempotent_reset initState DisconnectOutcome.ok rfl⟩

/-- C3 counterexample: a second `start_monitoring` call does not leave the
supervisor in the state a single call produces — it spawns a second monitor
thread, so two monitor loops run instead of one. -/
theorem c3_start_monitoring_cex :
    (start_monitoring (start_monitoring initState)).monitor_threads = 2 ∧
    (start_monitoring initState).monitor_threads = 1 ∧
    start_monitoring (start_monitoring initState) ≠ start_monitoring initState := by
  refine ⟨rfl, rfl, fun h => ?_⟩
  have h2 := congrArg ManagerState.monitor_threads h
  simp [start_monitoring] at h2

/-- C3 (amended): `start_monitoring` always sets the monitoring flag and
unconditionally spawns one additional monitor thread; a second call while
monitoring is active therefore leaves two concurrent monitor loops running
rather than one — the operation is not idempotent. -/
theorem c3_start_monitoring_spawns_again (s : ManagerState) :
    (start_monitoring s).monitoring_active = true ∧
    (start_monitoring s).monitor_threads = s.monitor_threads + 1 ∧
    (start_monitoring (start_monitoring s)).monitor_threads = s.monitor_threads + 2 := by
  simp [start_monitoring]

/-- C2 counterexample: a disconnected supervisor checked again 2 s after the
previous health check (interval 5 s) gets a success result (True) from
`health_check`, not the failure result the last known Disconnected state
would dictate. -/
theorem c2_health_check_gate_cex :
    ((102 : ℚ) - recentCheckState.last_health_check < recentCheckState.health_check_interval) ∧
    recentCheckState.connected = false ∧
    (health_check recentCheckState 102 ⟨ProbeOutcome.ok, ScanOutcome.found,
      DisconnectOutcome.ok⟩).2.1 = true := by
  refine ⟨by norm_num [recentCheckState, initState], rfl, ?_⟩
  unfold health_check
  norm_num [recentCheckState, initState]

/-- C2 (amended): a `health_check` call made less than
`health_check_interval` after the previous check is a no-op — no probe, no
scan, no state change (not even `last_health_check`) — but it returns a
success result (True) unconditionally, regardless of the last known
connection state. -/
theorem c2_health_check_rate_limited_noop (s : ManagerState) (now : Time)
    (sched : HealthSchedule)
    (h : now - s.last_health_check < s.health_check_interval) :
    health_check s now sched = (s, true, []) := by
  unfold health_check
  simp [h]

/-- Witness for the amended C2 at a concrete rate-limited call. -/
theorem c2_health_check_rate_limited_noop_witness :
    ((1 : ℚ) - initState.last_health_check < initState.health_check_interval) ∧
    health_check initState 1 ⟨ProbeOutcome.ok, ScanOutcome.found, DisconnectOutcome.ok⟩ =
      (initState, true, []) :=
  ⟨by norm_num [initState],
   c2_health_check_rate_limited_noop initState 1 _ (by norm_num [initState])⟩

/-- C8 counterexample: a Connected supervisor whose connection age (200 s)
exceeds `max_connection_age` (180 s) but whose previous health check was 2 s
ago stays Connected through the next `health_check` call — the rate-limit
gate returns True before the staleness logic runs. -/
theorem c8_stale_gated_cex :
    staleGatedState.connected = true ∧
    ((200 : ℚ) - staleGatedState.connection_start_time > staleGatedState.max_connection_age) ∧
    (health_check staleGatedState 200 ⟨ProbeOutcome.ok, ScanOutcome.found,
      DisconnectOutcome.ok⟩).1.connected = true ∧
    (health_check staleGatedState 200 ⟨ProbeOutcome.ok, ScanOutcome.found,
      DisconnectOutcome.ok⟩).2.1 = true := by
  refine ⟨rfl, by norm_num [staleGatedState, initState], ?_, ?_⟩ <;>
    · unfold health_check
      norm_num [staleGatedState, initState]

/-- C8 (amended): for a Connected supervisor whose connection age
`now - connection_start_time` exceeds `max_connection_age`, the next
`health_check` call that is not rate-limited (made at least
`health_check_interval` after the previous check) forces a transition to
Disconnected and reports failure, before any reset of the connection age —
and this holds however the liveness probe turns out. -/
theorem c8_health_check_stale_forces_disconnect (s : ManagerState) (now : Time)
    (sched : HealthSchedule) (hc : s.connected = true)
    (hstale : now - s.connection_start_time > s.max_connection_age)
    (hgate : s.health_check_interval ≤ now - s.last_health_check) :
    (health_check s now sched).1.connected = false ∧
    (health_check s now sched).2.1 = false := by
  have hng : ¬(now - s.last_health_check < s.health_check_interval) := not_lt.mpr hgate
  unfold health_check
  cases hp : sched.probe <;>
    simp [hng, hc, is_connection_stale, hstale, disconnect_safe, scan_for_device] <;>
    cases hs : sched.scan <;> simp [disconnect_safe]

/-- Witness for the amended C8: a stale connected supervisor, checked 200 s
after its last (zeroed) health check, ends up Disconnected. -/
theorem c8_health_check_stale_forces_disconnect_witness :
    connectedState.connected = true ∧
    ((200 : ℚ) - connectedState.connection_start_time > connectedState.max_connection_age) ∧
    (connectedState.health_check_interval ≤ (200 : ℚ) - connectedState.last_health_check) ∧
    ((health_check connectedState 200 ⟨ProbeOutcome.ok, ScanOutcome.found,
        DisconnectOutcome.ok⟩).1.connected = false ∧
     (health_check connectedState 200 ⟨ProbeOutcome.ok, ScanOutcome.found,
        DisconnectOutcome.ok⟩).2.1 = false) :=
  ⟨rfl, by norm_num [connectedState, initState], by norm_num [connectedState, initState],
   c8_health_check_stale_forces_disconnect connectedState 200 _ rfl
     (by norm_num [connectedState, initState])
     (by norm_num [connectedState, initState])⟩

/-- C4: when a Connected supervisor's liveness probe times out inside a
non-rate-limited `health_check`, a fresh scan classifies the failure: if the
peripheral is discoverable, a forced full reset runs (`disconnect_safe`,
visible as the nuclear controller replacement) and the state ends
Disconnected with a failure result; if it is not discoverable, the state is
merely marked Disconnected — same controller, no reset — with a failure
result. -/
theorem c4_health_check_probe_timeout_classification (s : ManagerState)
    (now : Time) (sched : HealthSchedule) (hc : s.connected = true)
    (hgate : s.health_check_interval ≤ now - s.last_health_check)
    (hp : sched.probe = ProbeOutcome.timeout) :
    (sched.scan = ScanOutcome.found →
       (health_check s now sched).1.controller = s.controller + 1 ∧
       (health_check s now sched).1.connected = false ∧
       (health_check s now sched).2.1 = false ∧
       Action.scanAction ∈ (health_check s now sched).2.2 ∧
       Action.resetController ∈ (health_check s now sched).2.2) ∧
    (sched.scan = ScanOutcome.notFound →
       (health_check s now sched).1.controller = s.controller ∧
       (health_check s now sched).1.connected = false ∧
       (health_check s now sched).2.1 = false ∧
       Action.scanAction ∈ (health_check s now sched).2.2 ∧
       Action.resetController ∉ (health_check s now sched).2.2) := by
  have hng : ¬(now - s.last_health_check < s.health_check_interval) := not_lt.mpr hgate
  unfold health_check
  constructor <;> intro hs <;>
    simp [hng, hc, hp, hs, disconnect_safe, scan_for_device]

/-- Witness for C4, exercising both scan outcomes on a concrete connected
supervisor whose probe timed out. -/
theorem c4_health_check_probe_timeout_classification_witness :
    connectedState.connected = true ∧
    (connectedState.health_check_interval ≤ (10 : ℚ) - connectedState.last_health_check) ∧
    (HealthSchedule.mk ProbeOutcome.timeout ScanOutcome.found DisconnectOutcome.ok).probe =
      ProbeOutcome.timeout ∧
    ((HealthSchedule.mk ProbeOutcome.timeout ScanOutcome.found DisconnectOutcome.ok).scan =
        ScanOutcome.found →
       (health_check connectedState 10 ⟨ProbeOutcome.timeout, ScanOutcome.found,
          DisconnectOutcome.ok⟩).1.controller = connectedState.controller + 1 ∧
       (health_check connectedState 10 ⟨ProbeOutcome.timeout, ScanOutcome.found,
          DisconnectOutcome.ok⟩).1.connected = false ∧
       (health_check connectedState 10 ⟨ProbeOutcome.timeout, ScanOutcome.found,
          DisconnectOutcome.ok⟩).2.1 = false ∧
       Action.scanAction ∈ (health_check connectedState 10 ⟨ProbeOutcome.timeout,
          ScanOutcome.found, DisconnectOutcome.ok⟩).2.2 ∧
       Action.resetController ∈ (health_check connectedState 10 ⟨ProbeOutcome.timeout,
          ScanOutcome.found, DisconnectOutcome.ok⟩).2.2) :=
  ⟨rfl, by norm_num [connectedState, initState], rfl,
   (c4_health_check_probe_timeout_classification connectedState 10 _ rfl
      (by norm_num [connectedState, initState]) rfl).1⟩

/-- C6: with the connection lock free, the supervisor disconnected, the scan
cache stale or absent and the peripheral not discoverable,
`connect_with_exponential_backoff(max_attempts)` returns false for every
`max_attempts ≥ 1` after exactly one scan and zero transport connect
attempts. -/
theorem c6_cwb_aborts_when_not_discoverable (s : ManagerState) (now : Time)
    (sched : CwbSchedule) (m : Nat) (hm : 1 ≤ m)
    (hlock : s.connect_lock_held = false) (hconn : s.connected = false)
    (hcache : is_scan_cache_valid s now = false)
    (hscan : sched.scan = ScanOutcome.notFound) :
    (connect_with_exponential_backoff s now sched m).2.1 = false ∧
    (connect_with_exponential_backoff s now sched m).2.2 = [Action.scanAction] ∧
    ((connect_with_exponential_backoff s now sched m).2.2.count Action.scanAction = 1) ∧
    (∀ k, Action.connectAttempt k ∉ (connect_with_exponential_backoff s now sched m).2.2) := by
  unfold connect_with_exponential_backoff
  simp [hlock, hconn, hcache, hscan, scan_for_device]

/-- Witness for C6: fresh supervisor, empty cache, peripheral absent,
`max_attempts = 5`. -/
theorem c6_cwb_aborts_when_not_discoverable_witness :
    (1 ≤ 5) ∧ initState.connect_lock_held = false ∧ initState.connected = false ∧
    is_scan_cache_valid initState 0 = false ∧
    ((connect_with_exponential_backoff initState 0
        ⟨ScanOutcome.notFound, fun _ => okAttempt⟩ 5).2.1 = false ∧
     (connect_with_exponential_backoff initState 0
        ⟨ScanOutcome.notFound, fun _ => okAttempt⟩ 5).2.2 = [Action.scanAction] ∧
     ((connect_with_exponential_backoff initState 0
        ⟨ScanOutcome.notFound, fun _ => okAttempt⟩ 5).2.2.count Action.scanAction = 1) ∧
     (∀ k, Action.connectAttempt k ∉ (connect_with_exponential_backoff initState 0
        ⟨ScanOutcome.notFound, fun _ => okAttempt⟩ 5).2.2)) :=
  ⟨by norm_num, rfl, rfl, rfl,
   c6_cwb_aborts_when_not_discoverable initState 0 _ 5 (by norm_num) rfl rfl rfl rfl⟩

/-- C5: in the retry loop of `connect_with_exponential_backoff` the backoff
delay for attempt `k` is `min(base_delay * 2^k, max_delay)`; this sequence is
non-decreasing, and strictly increasing as long as it is below the cap; the
first attempt starts with no sleep, and every later attempt that runs is
immediately preceded by a sleep of exactly its backoff delay. -/
theorem c5_backoff_schedule (s : ManagerState) (now : Time) (sched : CwbSchedule)
    (m : Nat) (hlock : s.connect_lock_held = false) (hconn : s.connected = false)
    (hcache : is_scan_cache_valid s now = true) :
    (∀ k, backoffDelay k = min (base_delay * 2 ^ k) max_delay) ∧
    (∀ k l, k ≤ l → backoffDelay k ≤ backoffDelay l) ∧
    (∀ k, backoffDelay k < max_delay → backoffDelay k < backoffDelay (k + 1)) ∧
    (1 ≤ m → ((connect_with_exponential_backoff s now sched m).2.2).take 1 =
      [Action.connectAttempt 0]) ∧
    (∀ k, 0 < k →
      Action.connectAttempt k ∈ (connect_with_exponential_backoff s now sched m).2.2 →
      List.IsInfix [Action.sleepAction (backoffDelay k), Action.connectAttempt k]
        (connect_with_exponential_backoff s now sched m).2.2) := by
  have hcwb : connect_with_exponential_backoff s now sched m =
      runAttempts now sched.attempts s 0 m := by
    unfold connect_with_exponential_backoff
    simp [hlock, hconn, hcache]
  refine ⟨fun k => rfl, fun k l h => backoffDelay_mono h, backoffDelay_strict, ?_, ?_⟩
  · rw [hcwb]
    exact fun h => runAttempts_head now sched.attempts s m h
  · rw [hcwb]
    exact fun k hk hmem => runAttempts_sleep_before now sched.attempts m s 0 k hk hmem

/-- An attempt schedule whose first connect attempt times out and whose
second succeeds, exercising one backoff sleep. -/
def c5Sched : CwbSchedule :=
  ⟨ScanOutcome.found, fun k =>
    if k = 0 then ⟨ConnectOutcome.timeout, ProbeOutcome.ok, DisconnectOutcome.ok⟩
    else okAttempt⟩

/-- Witness for C5 on a concrete cached, disconnected supervisor. -/
theorem c5_backoff_schedule_witness :
    cachedState.connect_lock_held = false ∧ cachedState.connected = false ∧
    is_scan_cache_valid cachedState 0 = true ∧
    ((∀ k, backoffDelay k = min (base_delay * 2 ^ k) max_delay) ∧
     (∀ k l, k ≤ l → backoffDelay k ≤ backoffDelay l) ∧
     (∀ k, backoffDelay k < max_delay → backoffDelay k < backoffDelay (k + 1)) ∧
     (1 ≤ 3 → ((connect_with_exponential_backoff cachedState 0 c5Sched 3).2.2).take 1 =
       [Action.connectAttempt 0]) ∧
     (∀ k, 0 < k →
       Action.connectAttempt k ∈ (connect_with_exponential_backoff cachedState 0 c5Sched 3).2.2 →
       List.IsInfix [Action.sleepAction (backoffDelay k), Action.connectAttempt k]
         (connect_with_exponential_backoff cachedState 0 c5Sched 3).2.2)) :=
  ⟨rfl, rfl, by norm_num [is_scan_cache_valid, cachedState, initState],
   c5_backoff_schedule cachedState 0 c5Sched 3 rfl rfl
     (by norm_num [is_scan_cache_valid, cachedState, initState])⟩

/-!  Helper lemmas for the connectedness invariant. -/

lemma runAttempts_inv (now : Time) (outs : Nat → AttemptOutcome) :
    ∀ (fuel : Nat) (s : ManagerState) (k : Nat), Inv s →
      Inv (runAttempts now outs s k fuel).1 := by
  intro fuel
  induction fuel with
  | zero => intro s k h; simpa [runAttempts] using h
  | succ fuel ih =>
    intro s k h
    cases hc : (outs k).connect <;> cases hp : (outs k).probe <;>
      simp only [runAttempts, hc, hp] <;>
      first
      | (intro _; exact ⟨rfl, rfl⟩)
      | (exact ih _ _ (fun hcon => by simp at hcon))

lemma runAttempts_connected_success (now : Time) (outs : Nat → AttemptOutcome) :
    ∀ (fuel : Nat) (s : ManagerState) (k : Nat), s.connected = false →
      (runAttempts now outs s k fuel).1.connected = true →
      ∃ j, (outs j).connect = ConnectOutcome.ok ∧ (outs j).probe = ProbeOutcome.ok := by
  intro fuel
  induction fuel with
  | zero =>
    intro s k h h2
    rw [show (runAttempts now outs s k 0).1 = s from rfl] at h2
    rw [h] at h2
    exact absurd h2 (by simp)
  | succ fuel ih =>
    intro s k h h2
    cases hc : (outs k).connect <;> cases hp : (outs k).probe <;>
      simp only [runAttempts, hc, hp] at h2 <;>
      first
      | exact ⟨k, hc, hp⟩
      | exact ih _ _ rfl h2

lemma disconnect_safe_yields_disconnected (s : ManagerState) (o : DisconnectOutcome) :
    (disconnect_safe s o).1.connected = false := by
  unfold disconnect_safe
  by_cases h : s.connected <;> simp [h]

lemma cwb_inv (s : ManagerState) (now : Time) (sched : CwbSchedule) (m : Nat)
    (h : Inv s) : Inv (connect_with_exponential_backoff s now sched m).1 := by
  unfold connect_with_exponential_backoff
  split
  · exact h
  · split
    · exact h
    · split
      · exact runAttempts_inv now sched.attempts m s 0 h
      · split
        next s1 tr1 heq =>
          have hin : Inv s1 := by
            cases hs : sched.scan <;> rw [hs] at heq <;>
              simp only [scan_for_device, Prod.mk.injEq] at heq
            · rw [← heq.1]
              exact fun hcon => h hcon
            · exact absurd heq.2.1 (by simp)
            · exact absurd heq.2.1 (by simp)
          exact runAttempts_inv now sched.attempts m s1 0 hin
        next s1 tr1 heq =>
          have hin : Inv s1 := by
            cases hs : sched.scan <;> rw [hs] at heq <;>
              simp only [scan_for_device, Prod.mk.injEq] at heq
            · exact absurd heq.2.1 (by simp)
            · rw [← heq.1]; exact h
            · rw [← heq.1]; exact h
          exact hin

lemma cwb_connected_success (s : ManagerState) (now : Time) (sched : CwbSchedule)
    (m : Nat) (h : s.connected = false)
    (h2 : (connect_with_exponential_backoff s now sched m).1.connected = true) :
    ∃ j, (sched.attempts j).connect = ConnectOutcome.ok ∧
         (sched.attempts j).probe = ProbeOutcome.ok := by
  unfold connect_with_exponential_backoff at h2
  split at h2
  · exact absurd (show s.connected = true from h2) (by simp [h])
  · split at h2
    next hcon => exact absurd hcon (by simp [h])
    next =>
      split at h2
      · exact runAttempts_connected_success now sched.attempts m s 0 h h2
      · split at h2
        next s1 tr1 heq =>
          have hs1 : s1.connected = false := by
            cases hs : sched.scan <;> rw [hs] at heq <;>
              simp only [scan_for_device, Prod.mk.injEq] at heq
            · rw [← heq.1]
              exact h
            · exact absurd heq.2.1 (by simp)
            · exact absurd heq.2.1 (by simp)
          exact runAttempts_connected_success now sched.attempts m s1 0 hs1 h2
        next s1 tr1 heq =>
          have hs1 : s1.connected = false := by
            cases hs : sched.scan <;> rw [hs] at heq <;>
              simp only [scan_for_device, Prod.mk.injEq] at heq
            · exact absurd heq.2.1 (by simp)
            · rw [← heq.1]; exact h
            · rw [← heq.1]; exact h
          exact absurd (show s1.connected = true from h2) (by simp [hs1])

lemma health_check_state_cases (s : ManagerState) (now : Time) (sched : HealthSchedule) :
    (health_check s now sched).1 = s ∨
    (health_check s now sched).1.connected = false ∨
    ((health_check s now sched).1 =
       { s with last_health_check := now, probed_since_connect := true } ∧
     s.connected = true) := by
  unfold health_check
  by_cases hg : now - s.last_health_check < s.health_check_interval
  · left; simp [hg]
  · by_cases hc : s.connected = true
    · cases hp : sched.probe
      · by_cases hst : is_connection_stale
            { s with connected := true, last_health_check := now,
                     probed_since_connect := true } now
        · right; left; simp [hg, hc, hp, hst]
        · right; right
          exact ⟨by simp [hg, hc, hp, hst], hc⟩
      · right; left
        cases hs : sched.scan <;> simp [hg, hc, hp, hs, scan_for_device]
      · right; left; simp [hg, hc, hp]
      · right; left; simp [hg, hc, hp]
    · right; left
      have hc' : s.connected = false := by simpa using hc
      simp [hg, hc']

lemma health_check_inv (s : ManagerState) (now : Time) (sched : HealthSchedule)
    (h : Inv s) : Inv (health_check s now sched).1 := by
  rcases health_check_state_cases s now sched with hcase | hcase | ⟨hcase, hc⟩
  · rw [hcase]; exact h
  · intro hcon; rw [hcase] at hcon; exact absurd hcon (by simp)
  · rw [hcase]; exact fun _ => ⟨(h hc).1, rfl⟩

lemma health_check_keeps_disconnected (s : ManagerState) (now : Time)
    (sched : HealthSchedule) (h : s.connected = false) :
    (health_check s now sched).1.connected = false := by
  rcases health_check_state_cases s now sched with hcase | hcase | ⟨hcase, hc⟩
  · rw [hcase]; exact h
  · exact hcase
  · rw [h] at hc; exact absurd hc (by simp)

/-- C9: the connectedness invariant — Connected implies the client handle is
established and a liveness probe has succeeded since the transition — is
preserved by every supervisor operation, and the only operation that can
move the supervisor from Disconnected to Connected is a
`connect_with_exponential_backoff` call whose schedule contains an attempt
with a successful transport connect followed by a successful liveness
probe. -/
theorem c9_connected_invariant (s : ManagerState) (op : Op) (hinv : Inv s) :
    Inv (applyOp s op) ∧
    (s.connected = false → (applyOp s op).connected = true →
      ∃ now sched m, op = Op.cwbOp now sched m ∧
        ∃ k, (sched.attempts k).connect = ConnectOutcome.ok ∧
             (sched.attempts k).probe = ProbeOutcome.ok) := by
  cases op with
  | scanOp now o =>
    constructor
    · cases o <;> simp only [applyOp, scan_for_device] <;> exact fun hc => hinv hc
    · intro h1 h2
      exfalso
      cases o <;> simp only [applyOp, scan_for_device] at h2 <;> rw [h1] at h2 <;>
        exact absurd h2 (by simp)
  | cwbOp now sched m =>
    exact ⟨cwb_inv s now sched m hinv,
      fun h1 h2 => ⟨now, sched, m, rfl, cwb_connected_success s now sched m h1 h2⟩⟩
  | healthOp now sched =>
    refine ⟨health_check_inv s now sched hinv, fun h1 h2 => ?_⟩
    have h2' : (health_check s now sched).1.connected = true := h2
    rw [health_check_keeps_disconnected s now sched h1] at h2'
    exact absurd h2' (by simp)
  | discOp o =>
    constructor
    · intro hc
      have hc' : (disconnect_safe s o).1.connected = true := hc
      rw [disconnect_safe_yields_disconnected] at hc'
      exact absurd hc' (by simp)
    · intro h1 h2
      have h2' : (disconnect_safe s o).1.connected = true := h2
      rw [disconnect_safe_yields_disconnected] at h2'
      exact absurd h2' (by simp)
  | entryProbeOp o =>
    constructor
    · by_cases hc : s.connected = true
      · cases o <;> simp only [applyOp] <;> rw [if_pos hc] <;>
          first
          | exact fun _ => ⟨(hinv hc).1, rfl⟩
          | (intro hcon; exact absurd hcon (by simp))
      · simp only [applyOp]
        rw [if_neg hc]
        exact hinv
    · intro h1 h2
      have hneg : ¬(s.connected = true) := by simp [h1]
      have h2' : s.connected = true := by simpa [applyOp, hneg] using h2
      exact absurd h2' hneg
  | markDisconnectedOp =>
    refine ⟨fun hc => absurd hc (by simp [applyOp]), fun h1 h2 => ?_⟩
    exact absurd h2 (by simp [applyOp])
  | startMonOp =>
    refine ⟨fun hc => hinv hc, fun h1 h2 => ?_⟩
    rw [show (applyOp s Op.startMonOp).connected = s.connected from rfl, h1] at h2
    exact absurd h2 (by simp)
  | stopMonOp =>
    refine ⟨fun hc => hinv hc, fun h1 h2 => ?_⟩
    rw [show (applyOp s Op.stopMonOp).connected = s.connected from rfl, h1] at h2
    exact absurd h2 (by simp)

/-!  Helper lemmas for the `get_connection` deadline. -/

lemma waitForCall_spec (dur : ℚ) (res : CallRes) (r : ℚ) (hd : 0 ≤ dur) (hr : 0 ≤ r) :
    0 ≤ (waitForCall dur res r).2 ∧ (waitForCall dur res r).2 ≤ r := by
  unfold waitForCall
  split
  next hle => exact ⟨hd, hle⟩
  next => exact ⟨hr, le_rfl⟩

lemma gcRemaining_pos (T e : ℚ) : 0 < gcRemaining T e :=
  lt_of_lt_of_le one_pos (le_max_left _ _)

lemma gc_step {T e B d : ℚ} (he : e ≤ B) (hTB : T ≤ B) (hd0 : 0 ≤ d)
    (hd : d ≤ gcRemaining T e) : e + d ≤ B + 1 := by
  unfold gcRemaining at hd
  rcases max_cases 1 (T - e) with ⟨hm, _⟩ | ⟨hm, _⟩ <;> rw [hm] at hd <;> linarith

lemma gcLoop_bound (T : ℚ) (iters : Nat → GCIter)
    (hv : ∀ i, 0 ≤ (iters i).fastDur ∧ 0 ≤ (iters i).slowDur) :
    ∀ (fuel : Nat) (i : Nat) (elapsed : ℚ), 0 ≤ elapsed → T ≤ elapsed + fuel →
      gcLoop T iters i elapsed fuel ≠ GCResult.fuelOut ∧
      (gcLoop T iters i elapsed fuel).time ≤ max elapsed (T + 4) := by
  intro fuel
  induction fuel with
  | zero =>
    intro i elapsed h0 hf
    have hnlt : ¬(elapsed < T) := by push_cast at hf; linarith
    simp only [gcLoop]
    rw [if_neg hnlt]
    exact ⟨by simp, le_max_left _ _⟩
  | succ fuel ih =>
    intro i elapsed h0 hf
    by_cases he : elapsed < T
    case neg =>
      simp only [gcLoop]
      rw [if_neg he]
      exact ⟨by simp, le_max_left _ _⟩
    case pos =>
      have hfq : T ≤ elapsed + (fuel : ℚ) + 1 := by push_cast at hf; linarith
      have hrec : ∀ nxt : ℚ, 0 ≤ nxt → elapsed + 1 ≤ nxt → nxt ≤ T + 4 →
          gcLoop T iters (i + 1) nxt fuel ≠ GCResult.fuelOut ∧
          (gcLoop T iters (i + 1) nxt fuel).time ≤ max elapsed (T + 4) := by
        intro nxt h1 h2 h3
        obtain ⟨hne, ht⟩ := ih (i + 1) nxt h1 (by push_cast; linarith)
        exact ⟨hne, ht.trans ((max_le h3 le_rfl).trans (le_max_right _ _))⟩
      have slowPhase : ∀ e1 : ℚ, 0 ≤ e1 → elapsed ≤ e1 → e1 ≤ T + 1 →
          gcAfterSlow e1 (fun nxt => gcLoop T iters (i + 1) nxt fuel)
            (waitForCall (iters i).slowDur (iters i).slowRes (gcRemaining T e1)) ≠
            GCResult.fuelOut ∧
          (gcAfterSlow e1 (fun nxt => gcLoop T iters (i + 1) nxt fuel)
            (waitForCall (iters i).slowDur (iters i).slowRes (gcRemaining T e1))).time ≤
            max elapsed (T + 4) := by
        intro e1 h1 h2 h3
        rcases hws : waitForCall (iters i).slowDur (iters i).slowRes (gcRemaining T e1)
          with ⟨w2, d2⟩
        have hspec := waitForCall_spec (iters i).slowDur (iters i).slowRes
          (gcRemaining T e1) (hv i).2 (gcRemaining_pos T e1).le
        rw [hws] at hspec
        have hd20 : 0 ≤ d2 := hspec.1
        have hd2r : d2 ≤ gcRemaining T e1 := hspec.2
        have he2 : e1 + d2 ≤ T + 2 := by
          have hstep := gc_step h3 (show T ≤ T + 1 by linarith) hd20 hd2r
          linarith
        cases w2 with
        | done b =>
          cases b
          · simp only [gcAfterSlow]
            exact hrec (e1 + d2 + 2) (by linarith) (by linarith) (by linarith)
          · refine ⟨by simp [gcAfterSlow], ?_⟩
            simp only [gcAfterSlow, GCResult.time]
            exact le_trans (by linarith) (le_max_right _ _)
        | excRaised =>
          simp only [gcAfterSlow]
          exact hrec (e1 + d2 + 1) (by linarith) (by linarith) (by linarith)
        | timedOut =>
          simp only [gcAfterSlow]
          exact hrec (e1 + d2 + 2) (by linarith) (by linarith) (by linarith)
      simp only [gcLoop]
      rw [if_pos he]
      by_cases hcv : (iters i).cacheValid = true
      · rw [if_pos hcv]
        rcases hwf : waitForCall (iters i).fastDur (iters i).fastRes (gcRemaining T elapsed)
          with ⟨w, d⟩
        have hspec := waitForCall_spec (iters i).fastDur (iters i).fastRes
          (gcRemaining T elapsed) (hv i).1 (gcRemaining_pos T elapsed).le
        rw [hwf] at hspec
        have hd0 : 0 ≤ d := hspec.1
        have hdr : d ≤ gcRemaining T elapsed := hspec.2
        have he1 : elapsed + d ≤ T + 1 := gc_step (le_of_lt he) le_rfl hd0 hdr
        cases w with
        | done b =>
          cases b
          · simp only [gcAfterFast]
            exact slowPhase (elapsed + d) (by linarith) (by linarith) he1
          · refine ⟨by simp [gcAfterFast], ?_⟩
            simp only [gcAfterFast, GCResult.time]
            exact le_trans (by linarith) (le_max_right _ _)
        | excRaised =>
          simp only [gcAfterFast]
          exact hrec (elapsed + d + 1) (by linarith) (by linarith) (by linarith)
        | timedOut =>
          simp only [gcAfterFast]
          exact slowPhase (elapsed + d) (by linarith) (by linarith) he1
      · rw [if_neg hcv]
        simp only [gcAfterFast]
        exact slowPhase (elapsed + 0) (by linarith) (by linarith) (by linarith)

/-- C1: `get_connection(timeout=T)` always terminates with either a usable
client handle or the `Unavailable` failure, within `T + ε` wall-clock
seconds for `ε = ble_cmd_timeout + 4` (9 s at the source's 5 s command
timeout), whatever combination of completions, exceptions and sub-timeouts
the environment produces for the awaited peripheral-client calls — because
the budget passed to each awaited connect call is recomputed from the wall
clock (`max(1.0, T - elapsed)`, the `gcRemaining` of the model) at every
retry, never taken as a fixed total sleep.  The fuel hypothesis shows a
fuel linear in `T` suffices, so the loop never runs unboundedly. -/
theorem c1_get_connection_deadline (s : ManagerState) (T : ℚ) (sched : GCSched)
    (fuel : Nat) (hT : 0 < T) (hcmd : 0 ≤ s.ble_cmd_timeout)
    (hv : ValidGCSched sched) (hfuel : T ≤ (fuel : ℚ)) :
    get_connection s T sched fuel ≠ GCResult.fuelOut ∧
    (get_connection s T sched fuel).time ≤ T + s.ble_cmd_timeout + 4 := by
  obtain ⟨hp, hi⟩ := hv
  have hloop : ∀ e : ℚ, 0 ≤ e → e ≤ s.ble_cmd_timeout →
      gcLoop T sched.iters 0 e fuel ≠ GCResult.fuelOut ∧
      (gcLoop T sched.iters 0 e fuel).time ≤ T + s.ble_cmd_timeout + 4 := by
    intro e h1 h2
    obtain ⟨hne, ht⟩ := gcLoop_bound T sched.iters hi fuel 0 e h1 (by linarith)
    exact ⟨hne, ht.trans (max_le (by linarith) (by linarith))⟩
  unfold get_connection
  by_cases hc : s.connected = true
  · rw [if_pos hc]
    rcases hwf : waitForCall sched.probeDur
        (if sched.probeRaises then CallRes.raises else CallRes.ok true)
        s.ble_cmd_timeout with ⟨w, d⟩
    have hspec := waitForCall_spec sched.probeDur
      (if sched.probeRaises then CallRes.raises else CallRes.ok true)
      s.ble_cmd_timeout hp hcmd
    rw [hwf] at hspec
    have hd0 : 0 ≤ d := hspec.1
    have hdr : d ≤ s.ble_cmd_timeout := hspec.2
    cases w with
    | done b =>
      refine ⟨by simp, ?_⟩
      simp only [GCResult.time]
      linarith
    | excRaised => exact hloop d hd0 hdr
    | timedOut => exact hloop d hd0 hdr
  · rw [if_neg hc]
    exact hloop 0 le_rfl hcmd

/-- Witness for C1: a 2 s budget against an environment whose connect calls
all fail instantly; the call ends with `Unavailable` well inside the bound. -/
theorem c1_get_connection_deadline_witness :
    (0 : ℚ) < 2 ∧ (0 : ℚ) ≤ initState.ble_cmd_timeout ∧ ValidGCSched allFailGC ∧
    ((2 : ℚ) ≤ ((2 : Nat) : ℚ)) ∧
    (get_connection initState 2 allFailGC 2 ≠ GCResult.fuelOut ∧
     (get_connection initState 2 allFailGC 2).time ≤ 2 + initState.ble_cmd_timeout + 4) :=
  ⟨by norm_num, by norm_num [initState], ⟨le_rfl, fun _ => ⟨le_rfl, le_rfl⟩⟩, by norm_num,
   c1_get_connection_deadline initState 2 allFailGC 2 (by norm_num)
     (by norm_num [initState]) ⟨le_rfl, fun _ => ⟨le_rfl, le_rfl⟩⟩ (by norm_num)⟩

/-- Witness for C9 at the initial state and a monitoring-start operation. -/
theorem c9_connected_invariant_witness :
    Inv initState ∧
    (Inv (applyOp initState Op.startMonOp) ∧
     (initState.connected = false → (applyOp initState Op.startMonOp).connected = true →
       ∃ now sched m, Op.startMonOp = Op.cwbOp now sched m ∧
         ∃ k, (sched.attempts k).connect = ConnectOutcome.ok ∧
              (sched.attempts k).probe = ProbeOutcome.ok)) :=
  ⟨fun h => absurd h (by decide),
   c9_connected_invariant initState Op.startMonOp (fun h => absurd h (by decide))⟩

end WalkingPad
